import Mathlib

/-!
Verification of the adaptive skills-assessment frontend (SSH repository).

The development shallowly embeds the orchestration layer of the React
application (the authoritative snapshot in `src/unnamed/part_000`, which
agrees with `src/FinalSSH/front/src/App.jsx` on all modelled functions):

* the unified pass/fail rule used by `finishQuiz` and the results screen,
* the local session store (`saveSession`),
* the adaptive quiz state machine (`App`: sub-state reset, item handlers,
  `fetchNextQuestion`, `finishQuiz`, the error/retry affordance),
* the interview orchestrator (`InterviewScreen`: `startRecording`,
  `speakText`, the mute toggle, the back-to-setup handler).

JavaScript numbers are modelled as rationals (`ℚ`), `Math.round` as
Mathlib `round` (both round half towards positive infinity), JS string
`trim`/falsiness checks as `String.trim`/emptiness, and the asynchronous
service calls as oracle parameters of the transition functions (the
response a call would deliver is passed in as data).
-/

namespace SSH

/-! ## Data model -/

/-- Item type tag: the code discriminates on `currentQ.type` being
`"mcq"`, `"open"` or `"scenario"`. -/
inductive QType where
  | mcq
  | openq
  | scenario
  deriving DecidableEq, Repr, Inhabited

/-- An assessment item as delivered by the item service.  Fields unused by
a given type are empty (mirroring absent JSON fields): `scenario` is `""`
for non-scenario items, `decisionPoints` (the `decision_points` array,
reduced to the situation texts) is `[]` unless the item is a scenario. -/
structure Question where
  qtype : QType
  question : String
  context : String
  correct : String
  explanation : String
  scenario : String
  decisionPoints : List String
  deriving DecidableEq, Repr, Inhabited

/-- Grading-service response for an open (L2) item: the fields of the
`/l2/evaluate` payload that the flow logic reads (`score`, `max_score`). -/
structure Evaluation where
  score : ℚ
  max_score : ℚ
  deriving DecidableEq, Repr, Inhabited

/-- Grading-service response for a scenario (L3) item: the fields of the
`/l3/evaluate` payload that the flow logic reads. -/
structure ScenarioEval where
  total_score : ℚ
  total_max_score : ℚ
  deriving DecidableEq, Repr, Inhabited

/-- One completed-item record, as built by `handleMCQNext`,
`handleOpenNext` and `handleScenarioNext`.  Fields a given handler does
not set are `none` (absent in the JS object): MCQ entries carry
`timeTaken`, `selected`, `correct` but no `score`/`max_score`; graded
entries carry `score`/`max_score` but none of the MCQ-only fields. -/
structure HistoryEntry where
  question : String
  level : ℕ
  difficulty : String
  isCorrect : Bool
  timeTaken : Option ℤ
  selected : Option String
  correct : Option String
  score : Option ℚ
  max_score : Option ℚ
  deriving DecidableEq, Repr, Inhabited

/-! ## Unified pass/fail rule

Source (`finishQuiz`, also the `resultScore` display and the results /
review tables):
`finalHistory.filter(h => h.isCorrect || (h.score >= (h.max_score || 10) * 0.6)).length`.
-/

/-- JS `h.max_score || 10`: an absent (`undefined`) or zero `max_score` is
falsy and is replaced by the default scale 10. -/
def effectiveMax (e : HistoryEntry) : ℚ :=
  match e.max_score with
  | none => 10
  | some m => if m = 0 then 10 else m

/-- JS `h.isCorrect || (h.score >= (h.max_score || 10) * 0.6)`.  An absent
`score` makes the comparison false (`undefined >= x` is false in JS). -/
def successEntry (e : HistoryEntry) : Bool :=
  e.isCorrect ||
    (match e.score with
     | none => false
     | some s => decide (effectiveMax e * (3/5) ≤ s))

/-- The tally computed by `finishQuiz` (the sealed session score) and,
with the same filter expression, the `resultScore` displayed on the
results screen. -/
def sessionScore (h : List HistoryEntry) : ℕ :=
  (h.filter successEntry).length

/-- Restated from the wording of the spec, for refinement comparison with
`successEntry`: an item counts as a success if either an explicit boolean
correctness flag is true, or score / max_score is at least 0.6 when
max_score is defined. -/
def specSuccessRule (e : HistoryEntry) : Bool :=
  e.isCorrect ||
    (match e.score, e.max_score with
     | some s, some m => decide ((3/5 : ℚ) ≤ s / m)
     | _, _ => false)

/-- Shape of a realistically graded entry: either ungraded (no raw score,
as MCQ entries) or graded against a positive maximum. -/
def wellScored (e : HistoryEntry) : Bool :=
  e.score.isNone ||
    (match e.max_score with
     | some m => decide (0 < m)
     | none => false)

/-- `Math.round((score / max_score) * 100)` from `handleOpenNext`. -/
def openScorePct (ev : Evaluation) : ℤ :=
  round (ev.score / ev.max_score * 100)

/-- The history entry `handleOpenNext` builds for an open item graded
`s`/`m`, with the incidental display fields fixed. -/
def openGraded (s m : ℚ) : HistoryEntry :=
  { question := "open item", level := 2, difficulty := "medium",
    isCorrect := decide ((60 : ℤ) ≤ openScorePct ⟨s, m⟩),
    timeTaken := none, selected := none, correct := none,
    score := some s, max_score := some m }

/-! ## Local session store -/

/-- A sealed session record as built by `finishQuiz` (the display-only
`level` and `date` strings are elided; `feedback` is `""` at sealing and
only back-filled for display afterwards). -/
structure Session where
  topic : String
  proficiency : String
  score : ℕ
  total : ℕ
  history : List HistoryEntry
  feedback : String
  deriving DecidableEq, Repr, Inhabited

/-- `saveSession`: `all.unshift(s); localStorage.setItem(..., JSON.stringify(all.slice(0, 50)))`. -/
def saveSession (all : List Session) (s : Session) : List Session :=
  (s :: all).take 50

/-! ## Interview orchestrator (`InterviewScreen`) -/

/-- One entry of the interview exchange log (`messages`). -/
inductive IvMsg where
  | ai (text : String)
  | user (text : String)
  | evalResult (score : ℚ) (grade : String) (feedback : String)
  | error (text : String)
  deriving DecidableEq, Repr, Inhabited

/-- One per-question history record of the interview
(`{ question, user_answer, score, grade, ... }`). -/
structure IvEntry where
  question : String
  user_answer : String
  score : ℚ
  grade : String
  deriving DecidableEq, Repr, Inhabited

/-- The orchestrator state of `InterviewScreen`.  `speaking` models an
utterance being played by `window.speechSynthesis`; `captureActive`
models an open `MediaRecorder`/microphone stream. -/
structure InterviewState where
  phase : String
  status : String
  isRecording : Bool
  captureActive : Bool
  speaking : Bool
  isMuted : Bool
  transcript : String
  messages : List IvMsg
  history : List IvEntry
  deriving DecidableEq, Repr, Inhabited

/-- `speakText`: returns immediately when muted; otherwise cancels any
previous utterance and starts the new one (net effect on the playback
resource: it is busy with the new utterance). -/
def speakText (st : InterviewState) (_text : String) : InterviewState :=
  if st.isMuted then st else { st with speaking := true }

/-- `addMsg`: appends to the exchange log and speaks the text of an AI
message (non-empty text, unless muted). -/
def addMsg (st : InterviewState) (m : IvMsg) : InterviewState :=
  match m with
  | .ai t =>
      if t = "" then { st with messages := st.messages ++ [m] }
      else speakText { st with messages := st.messages ++ [m] } t
  | _ => { st with messages := st.messages ++ [m] }

/-- Outcome of `navigator.mediaDevices.getUserMedia`. -/
inductive MicOutcome where
  | granted
  | denied (msg : String)
  deriving DecidableEq, Repr, Inhabited

/-- `startRecording`: `if (status !== "idle") return;` then acquire the
microphone; on success start the recorder (`setIsRecording(true);
setStatus("recording")`), on permission failure log an inline error. -/
def startRecording (st : InterviewState) (mic : MicOutcome) : InterviewState :=
  if st.status ≠ "idle" then st
  else
    match mic with
    | .granted =>
        { st with isRecording := true, status := "recording", captureActive := true }
    | .denied m =>
        addMsg st (.error ("Mic error: " ++ m ++ ". Type your answer instead."))

/-- The back button of the active interview header:
`setPhase("setup"); setMessages([]); setHistory([]); setTranscript("")`. -/
def backToSetup (st : InterviewState) : InterviewState :=
  { st with phase := "setup", messages := [], history := [], transcript := "" }

/-- The mute button: `setIsMuted(!isMuted); if (!isMuted) window.speechSynthesis.cancel()`. -/
def toggleMute (st : InterviewState) : InterviewState :=
  if st.isMuted then { st with isMuted := false }
  else { st with isMuted := true, speaking := false }

/-! ## Adaptive quiz state machine (`App`)

The React component state that the orchestration reads and writes.
State setters of one handler are collapsed into one transition; the
response of an in-flight service call is a parameter of the transition
(a `FetchOutcome`, `Evaluation` or `ScenarioEval` oracle value).
-/

/-- JS `s.trim()` is falsy exactly when the trimmed string is empty,
that is, when every character of `s` is whitespace.  (The flow logic only
ever uses `trim` in this truthiness test.) -/
def isBlank (s : String) : Bool :=
  s.toList.all Char.isWhitespace

/-- `stepAnswers[k] || ""`: a missing key reads as the empty string. -/
def getAns (m : ℕ → Option String) (k : ℕ) : String :=
  (m k).getD ""

/-- `currentQ.decision_points?.length || 3`: an absent or empty array
falls back to 3 steps. -/
def totalStepsOf (q : Question) : ℕ :=
  if q.decisionPoints.length = 0 then 3 else q.decisionPoints.length

/-- `data.question.scenario || data.question.question`: the de-duplication
key under which a served item is remembered. -/
def askedKey (q : Question) : String :=
  if q.scenario = "" then q.question else q.scenario

/-- `newHistory.map(h => h.question).filter(Boolean)`. -/
def askedOf (h : List HistoryEntry) : List String :=
  (h.map (fun e => e.question)).filter (fun s => s ≠ "")

/-- The component state of `App` that the quiz orchestration touches.
`stepAnswers` is the decision-answer object (missing key = `none`). -/
structure QuizState where
  screen : String
  topic : String
  proficiency : String
  numQuestions : ℕ
  loading : Bool
  sessions : List Session
  qIndex : ℕ
  currentQ : Option Question
  currentLevel : ℕ
  currentDiff : String
  recentScores : List ℚ
  askedQuestions : List String
  history : List HistoryEntry
  startTime : ℤ
  selected : Option String
  revealed : Bool
  openAnswer : String
  evaluation : Option Evaluation
  showHint : Bool
  currentStep : ℕ
  stepAnswers : ℕ → Option String
  stepHint : Bool
  scenarioEval : Option ScenarioEval
  feedback : String
  quizError : Option String
  deriving Inhabited

/-- `resetSubState`: the per-item sub-state reset run at every item
boundary. -/
def resetSubState (st : QuizState) : QuizState :=
  { st with selected := none, revealed := false,
            openAnswer := "", evaluation := none, showHint := false,
            currentStep := 1, stepAnswers := fun _ => none, stepHint := false,
            scenarioEval := none }

/-- The outcome of the `/adaptive/next` request: a next question with the
authoritative new level/difficulty (and the wall-clock instant at which
the response is applied), or a transport/validation error message. -/
inductive FetchOutcome where
  | ok (q : Question) (newLevel : ℕ) (newDiff : String) (now : ℤ)
  | err (msg : String)
  deriving Repr, Inhabited

/-- The request body `fetchNextQuestion` posts to `/adaptive/next`. -/
structure NextRequest where
  topic : String
  proficiency : String
  current_level : ℕ
  current_difficulty : String
  last_score_pct : ℚ
  time_taken_ms : ℤ
  recent_score_pcts : List ℚ
  asked_questions : List String
  deriving DecidableEq, Repr, Inhabited

/-- The JSON body of the `/adaptive/next` request, from the source of
`fetchNextQuestion`. -/
def buildNextRequest (st : QuizState) (newHistory : List HistoryEntry)
    (newScores : List ℚ) (lastScorePct : ℚ) (timeTaken : ℤ) : NextRequest :=
  { topic := st.topic, proficiency := st.proficiency,
    current_level := st.currentLevel, current_difficulty := st.currentDiff,
    last_score_pct := lastScorePct, time_taken_ms := timeTaken,
    recent_score_pcts := newScores, asked_questions := askedOf newHistory }

/-- `fetchNextQuestion`: on success install the next question and the
authoritative level/difficulty, extend the asked list, advance `qIndex`,
run `resetSubState` and capture a fresh elapsed-time reference point; on
failure set only the user-visible retryable error. -/
def fetchNextQuestion (st : QuizState) (newHistory : List HistoryEntry)
    (_newScores : List ℚ) (_lastScorePct : ℚ) (_timeTaken : ℤ)
    (outcome : FetchOutcome) : QuizState :=
  match outcome with
  | .ok q lvl diff now =>
      resetSubState
        { st with loading := false, quizError := none,
                  currentQ := some q, currentLevel := lvl, currentDiff := diff,
                  askedQuestions := askedOf newHistory ++ [askedKey q],
                  qIndex := st.qIndex + 1, startTime := now }
  | .err msg =>
      { st with loading := false, quizError := some msg }

/-- The session record built by `finishQuiz`. -/
def mkSession (st : QuizState) (finalHistory : List HistoryEntry) : Session :=
  { topic := st.topic, proficiency := st.proficiency,
    score := sessionScore finalHistory, total := st.numQuestions,
    history := finalHistory, feedback := "" }

/-- `finishQuiz`: seal the session, hand it to the local session store and
show the results screen.  (The subsequent asynchronous `/feedback` request
only back-fills the advisory feedback text for display.) -/
def finishQuiz (st : QuizState) (finalHistory : List HistoryEntry) : QuizState :=
  { st with sessions := saveSession st.sessions (mkSession st finalHistory),
            screen := "results" }

/-- The common tail of the three item handlers:
`if (qIndex >= numQuestions) { finishQuiz(newHistory); return; }
await fetchNextQuestion(newHistory, newScores, lastScorePct, timeTaken)`,
evaluated on the state that already holds the appended history/scores. -/
def proceed (st : QuizState) (lastScorePct : ℚ) (timeTaken : ℤ)
    (outcome : FetchOutcome) : QuizState :=
  if st.numQuestions ≤ st.qIndex then finishQuiz st st.history
  else fetchNextQuestion st st.history st.recentScores lastScorePct timeTaken outcome

/-- `selected === currentQ.correct ? 100 : 0`. -/
def mcqScorePct (st : QuizState) (q : Question) : ℚ :=
  if st.selected = some q.correct then 100 else 0

/-- The history entry `handleMCQNext` appends. -/
def mcqEntry (st : QuizState) (q : Question) (now : ℤ) : HistoryEntry :=
  { question := q.question, level := 1, difficulty := st.currentDiff,
    isCorrect := decide (st.selected = some q.correct),
    timeTaken := some (now - st.startTime),
    selected := st.selected, correct := some q.correct,
    score := none, max_score := none }

/-- `handleMCQNext`. -/
def handleMCQNext (st : QuizState) (now : ℤ) (outcome : FetchOutcome) : QuizState :=
  match st.currentQ with
  | none => st
  | some q =>
      proceed { st with history := st.history ++ [mcqEntry st q now],
                        recentScores := st.recentScores ++ [mcqScorePct st q] }
        (mcqScorePct st q) (now - st.startTime) outcome

/-- The history entry `handleOpenNext` appends (`isCorrect: scorePct >= 60`). -/
def openEntry (st : QuizState) (q : Question) (ev : Evaluation) : HistoryEntry :=
  { question := q.question, level := 2, difficulty := st.currentDiff,
    isCorrect := decide ((60 : ℤ) ≤ openScorePct ev),
    timeTaken := none, selected := none, correct := none,
    score := some ev.score, max_score := some ev.max_score }

/-- `handleOpenNext`. -/
def handleOpenNext (st : QuizState) (now : ℤ) (outcome : FetchOutcome) : QuizState :=
  match st.currentQ, st.evaluation with
  | some q, some ev =>
      proceed { st with history := st.history ++ [openEntry st q ev],
                        recentScores := st.recentScores ++ [((openScorePct ev : ℤ) : ℚ)] }
        ((openScorePct ev : ℤ) : ℚ) (now - st.startTime) outcome
  | _, _ => st

/-- `scenarioEval.total_max_score ? Math.round(total/max*100) : 0`. -/
def scenarioScorePct (sev : ScenarioEval) : ℚ :=
  if sev.total_max_score = 0 then 0
  else ((round (sev.total_score / sev.total_max_score * 100) : ℤ) : ℚ)

/-- The history entry `handleScenarioNext` appends (prompt snapshot is the
scenario text truncated to 120 characters). -/
def scenarioEntry (st : QuizState) (q : Question) (sev : ScenarioEval) : HistoryEntry :=
  { question := q.scenario.take 120, level := 3, difficulty := st.currentDiff,
    isCorrect := decide ((60 : ℚ) ≤ scenarioScorePct sev),
    timeTaken := none, selected := none, correct := none,
    score := some sev.total_score, max_score := some sev.total_max_score }

/-- `handleScenarioNext`. -/
def handleScenarioNext (st : QuizState) (now : ℤ) (outcome : FetchOutcome) : QuizState :=
  match st.currentQ, st.scenarioEval with
  | some q, some sev =>
      proceed { st with history := st.history ++ [scenarioEntry st q sev],
                        recentScores := st.recentScores ++ [scenarioScorePct sev] }
        (scenarioScorePct sev) (now - st.startTime) outcome
  | _, _ => st

/-- `handleStepNext`: a blank answer for the current decision point is a
no-op; otherwise advance the stepper, or — from the last step — fire the
single `/l3/evaluate` request over the whole answer map (its response
`result` installs the scenario grading panel). -/
def handleStepNext (st : QuizState) (result : ScenarioEval) : QuizState :=
  match st.currentQ with
  | none => st
  | some q =>
      if isBlank (getAns st.stepAnswers st.currentStep) then st
      else if st.currentStep < totalStepsOf q then
        { st with currentStep := st.currentStep + 1, stepHint := false }
      else
        { st with scenarioEval := some result }

/-- True exactly when a click on the stepper button fires the grading
request (the final `else` branch of `handleStepNext`). -/
def stepSubmits (st : QuizState) : Bool :=
  match st.currentQ with
  | none => false
  | some q =>
      !isBlank (getAns st.stepAnswers st.currentStep) &&
        decide (totalStepsOf q ≤ st.currentStep)

/-- The body of the `/l3/evaluate` request: the whole decision-answer map
is submitted at once (`user_answers: stepAnswers`). -/
structure L3Request where
  scenario : String
  user_answers : ℕ → Option String
  proficiency : String

/-- The `/l3/evaluate` request `handleStepNext` posts on submission. -/
def buildL3Request (st : QuizState) (q : Question) : L3Request :=
  { scenario := q.scenario, user_answers := st.stepAnswers,
    proficiency := st.proficiency }

/-- The post-`startQuiz` state of a freshly started quiz (the success path
of `startQuiz`: empty history/scores/asked, `qIndex = 1`, level 1,
medium difficulty, full sub-state reset, first question installed). -/
def initQuiz (topic prof : String) (numQ : ℕ) (sessions0 : List Session)
    (q : Question) (now : ℤ) : QuizState :=
  { screen := "adaptive-quiz", topic := topic, proficiency := prof,
    numQuestions := numQ, loading := false, sessions := sessions0,
    qIndex := 1, currentQ := some q, currentLevel := 1, currentDiff := "medium",
    recentScores := [], askedQuestions := [askedKey q], history := [],
    startTime := now, selected := none, revealed := false, openAnswer := "",
    evaluation := none, showHint := false, currentStep := 1,
    stepAnswers := fun _ => none, stepHint := false, scenarioEval := none,
    feedback := "", quizError := none }

/-! ### User-interface events

Each event mirrors one interactive control of the quiz screen; its guard
mirrors the rendering condition and `disabled` attribute under which the
control can actually be activated. -/

/-- The user events of the quiz screen.  Service responses travel inside
the event (the oracle value the in-flight request resolves to). -/
inductive Event where
  | select (key : String)
  | mcqNext (now : ℤ) (outcome : FetchOutcome)
  | editOpen (s : String)
  | submitOpen (ev : Evaluation)
  | openNext (now : ℤ) (outcome : FetchOutcome)
  | toggleHint
  | editStep (s : String)
  | toggleStepHint
  | stepNext (result : ScenarioEval)
  | scenarioNext (now : ℤ) (outcome : FetchOutcome)
  | retry
  deriving Repr, Inhabited

/-- The quiz body renders interactive controls only when on the quiz
screen, not loading, with no error box and a current question. -/
def guardQuiz (st : QuizState) : Bool :=
  decide (st.screen = "adaptive-quiz") && !st.loading &&
    st.quizError.isNone && st.currentQ.isSome

/-- Whether the current question has the given type. -/
def qtypeIs (st : QuizState) (t : QType) : Bool :=
  match st.currentQ with
  | some q => decide (q.qtype = t)
  | none => false

/-- One user interaction: `none` when the corresponding control is not
rendered (or is disabled) in the given state, otherwise the successor
state. -/
def step (st : QuizState) (e : Event) : Option QuizState :=
  match e with
  | .select k =>
      if guardQuiz st && qtypeIs st .mcq && st.evaluation.isNone then
        some (if st.revealed then st
              else { st with selected := some k, revealed := true })
      else none
  | .mcqNext now outcome =>
      if guardQuiz st && qtypeIs st .mcq && st.evaluation.isNone && st.revealed then
        some (handleMCQNext st now outcome)
      else none
  | .editOpen s =>
      if guardQuiz st && qtypeIs st .openq && st.evaluation.isNone then
        some { st with openAnswer := s }
      else none
  | .submitOpen ev =>
      if guardQuiz st && qtypeIs st .openq && st.evaluation.isNone &&
          !isBlank st.openAnswer then
        some { st with evaluation := some ev }
      else none
  | .openNext now outcome =>
      if guardQuiz st && qtypeIs st .openq && st.evaluation.isSome then
        some (handleOpenNext st now outcome)
      else none
  | .toggleHint =>
      if guardQuiz st && qtypeIs st .openq && st.evaluation.isNone then
        some { st with showHint := !st.showHint }
      else none
  | .editStep s =>
      if guardQuiz st && qtypeIs st .scenario && st.scenarioEval.isNone then
        some { st with stepAnswers :=
                 fun k => if k = st.currentStep then some s else st.stepAnswers k }
      else none
  | .toggleStepHint =>
      if guardQuiz st && qtypeIs st .scenario && st.scenarioEval.isNone then
        some { st with stepHint := !st.stepHint }
      else none
  | .stepNext result =>
      if guardQuiz st && qtypeIs st .scenario && st.scenarioEval.isNone then
        some (handleStepNext st result)
      else none
  | .scenarioNext now outcome =>
      if guardQuiz st && qtypeIs st .scenario && st.scenarioEval.isSome then
        some (handleScenarioNext st now outcome)
      else none
  | .retry =>
      if decide (st.screen = "adaptive-quiz") && !st.loading && st.quizError.isSome then
        some { st with quizError := none }
      else none

/-- Run a sequence of user events; `none` as soon as an event is not
available in the state it meets. -/
def run (st : QuizState) : List Event → Option QuizState
  | [] => some st
  | e :: es =>
      match step st e with
      | none => none
      | some st1 => run st1 es

/-! ## Derived observations and invariants -/

/-- The `/adaptive/next` request body that `handleMCQNext` hands to
`fetchNextQuestion` when the answered item is not the last one. -/
def mcqNextRequest (st : QuizState) (now : ℤ) : Option NextRequest :=
  match st.currentQ with
  | none => none
  | some q =>
      if st.numQuestions ≤ st.qIndex then none
      else
        some (buildNextRequest
          { st with history := st.history ++ [mcqEntry st q now],
                    recentScores := st.recentScores ++ [mcqScorePct st q] }
          (st.history ++ [mcqEntry st q now])
          (st.recentScores ++ [mcqScorePct st q])
          (mcqScorePct st q) (now - st.startTime))

/-- The average shown by `LevelProgressBar`:
`recentScores.length ? Math.round(recentScores.slice(-2).reduce((a, b) => a + b, 0) / Math.min(recentScores.length, 2)) : null`. -/
def levelBarAvg (recentScores : List ℚ) : Option ℤ :=
  if recentScores.length = 0 then none
  else
    some (round ((recentScores.drop (recentScores.length - 2)).sum /
      ((min recentScores.length 2 : ℕ) : ℚ)))

/-- A fetch outcome that is not a transport/validation failure. -/
def okOutcome : FetchOutcome → Bool
  | .ok _ _ _ _ => true
  | .err _ => false

/-- An event whose embedded service response, if any, is a success. -/
def okEvent : Event → Bool
  | .mcqNext _ o => okOutcome o
  | .openNext _ o => okOutcome o
  | .scenarioNext _ o => okOutcome o
  | _ => true

/-- Invariant tying the item counter to the accumulated history on the
quiz screen, and the sealed head session to the configured item count on
the results screen. -/
def SealedInv (N : ℕ) (st : QuizState) : Prop :=
  st.numQuestions = N ∧
  (st.screen = "adaptive-quiz" →
    st.quizError = none ∧ st.qIndex = st.history.length + 1 ∧ st.qIndex ≤ N) ∧
  (st.screen = "results" →
    ∃ s rest, st.sessions = s :: rest ∧ s.total = N ∧ s.history.length = N)

/-- Invariant of the scenario stepper: every decision point strictly
before the current one carries a non-blank stored answer, nothing at or
beyond index 0 or past the pointer is stored, and the pointer stays
within the decision-point range of the current item. -/
def ScnInv (st : QuizState) : Prop :=
  1 ≤ st.currentStep ∧
  st.stepAnswers 0 = none ∧
  (∀ k, 1 ≤ k → k < st.currentStep →
    ∃ a, st.stepAnswers k = some a ∧ isBlank a = false) ∧
  (∀ k, st.currentStep < k → st.stepAnswers k = none) ∧
  (∀ q, st.currentQ = some q → st.currentStep ≤ totalStepsOf q)

/-! ## Concrete fixtures for counterexamples and witnesses -/

/-- A minimal multiple-choice item. -/
def mcqQ (label correctKey : String) : Question :=
  { qtype := .mcq, question := label, context := "", correct := correctKey,
    explanation := "", scenario := "", decisionPoints := [] }

/-- A 3-item quiz session about to present its first question. -/
def retryDemoInit : QuizState :=
  initQuiz "react" "intermediate" 3 [] (mcqQ "Q1" "A") 0

/-- The retry trace: answer Q1, fail to fetch, hit Retry, answer the
re-presented Q1 again, fetch succeeding this time. -/
def retryDemoEvs : List Event :=
  [.select "A", .mcqNext 1 (.err "network"), .retry,
   .mcqNext 2 (.ok (mcqQ "Q2" "A") 1 "medium" 2)]

/-- A 3-item quiz session used for the sealed-length counterexample. -/
def sealDemoInit : QuizState :=
  initQuiz "react" "intermediate" 3 [] (mcqQ "Q1" "A") 0

/-- The full run of `sealDemoInit` with one failed fetch and its forced
re-submission, continued to completion. -/
def sealDemoEvs : List Event :=
  [.select "A", .mcqNext 1 (.err "network"), .retry,
   .mcqNext 2 (.ok (mcqQ "Q2" "A") 1 "medium" 2),
   .select "A", .mcqNext 3 (.ok (mcqQ "Q3" "A") 1 "medium" 3),
   .select "A", .mcqNext 4 (.ok (mcqQ "Q4" "A") 1 "medium" 4)]

/-- A 4-item quiz session used for the rolling-window counterexample. -/
def windowDemoInit : QuizState :=
  initQuiz "react" "intermediate" 4 [] (mcqQ "Q1" "A") 0

/-- Three completed items of `windowDemoInit` with successful fetches. -/
def windowDemoEvs : List Event :=
  [.select "A", .mcqNext 1 (.ok (mcqQ "Q2" "A") 1 "medium" 1),
   .select "A", .mcqNext 2 (.ok (mcqQ "Q3" "A") 1 "medium" 2),
   .select "A", .mcqNext 3 (.ok (mcqQ "Q4" "A") 1 "medium" 3)]

/-- The first two completed items of the rolling-window run. -/
def windowDemoMid : QuizState :=
  (run windowDemoInit (windowDemoEvs.take 4)).getD default

/-- The state after the failed fetch of the retry trace. -/
def retryDemoFailed : QuizState :=
  (run retryDemoInit (retryDemoEvs.take 2)).getD default

/-- A fully successful 3-item run used as the happy-path witness. -/
def sealWitnessInit : QuizState :=
  initQuiz "react" "intermediate" 3 [] (mcqQ "W1" "A") 0

/-- The events of the happy-path witness run. -/
def sealWitnessEvs : List Event :=
  [.select "A", .mcqNext 1 (.ok (mcqQ "W2" "A") 1 "medium" 1),
   .select "B", .mcqNext 2 (.ok (mcqQ "W3" "A") 1 "medium" 2),
   .select "A", .mcqNext 3 (.ok (mcqQ "W4" "A") 1 "medium" 3)]

/-- The final state of the happy-path witness run. -/
def sealWitnessFinal : QuizState :=
  (run sealWitnessInit sealWitnessEvs).getD default

/-- A scenario item with two decision points. -/
def scnWitnessQ : Question :=
  { qtype := .scenario, question := "", context := "ops",
    correct := "", explanation := "", scenario := "Prod incident",
    decisionPoints := ["first call", "second call"] }

/-- A quiz session presenting the two-step scenario item. -/
def scnWitnessInit : QuizState :=
  initQuiz "sre" "advanced" 3 [] scnWitnessQ 0

/-- Answer step 1, advance, answer step 2: the stepper now sits on its
last decision point with a non-blank draft. -/
def scnWitnessEvs : List Event :=
  [.editStep "page the on-call", .stepNext ⟨0, 0⟩, .editStep "roll back"]

/-- The state of the stepper just before the grading submission. -/
def scnWitnessSt : QuizState :=
  (run scnWitnessInit scnWitnessEvs).getD default

/-- A graded entry whose `max_score` field is absent, as read back from a
legacy stored session by the review table. -/
def legacyEntry : HistoryEntry :=
  { question := "legacy open item", level := 2, difficulty := "medium",
    isCorrect := false, timeTaken := none, selected := none, correct := none,
    score := some 6, max_score := none }

/-- An interview mid-transcription. -/
def busyInterview : InterviewState :=
  { phase := "interview", status := "transcribing", isRecording := false,
    captureActive := false, speaking := false, isMuted := false,
    transcript := "", messages := [], history := [] }

/-- An active interview while the question is still being spoken aloud. -/
def speakingInterview : InterviewState :=
  { phase := "interview", status := "idle", isRecording := false,
    captureActive := false, speaking := true, isMuted := false,
    transcript := "draft answer",
    messages := [.ai "Explain event delegation."],
    history := [{ question := "Explain event delegation.",
                  user_answer := "bubbling", score := 5, grade := "Partial" }] }

/-! ## Shared lemmas -/

/-- Keeping 50 of a freshly prepended list keeps the new head and the
first 49 retained entries. -/
theorem saveSession_cons (all : List Session) (s : Session) :
    saveSession all s = s :: all.take 49 := by
  show List.take (49 + 1) (s :: all) = s :: all.take 49
  rw [List.take_succ_cons]

/-- The 0.6 threshold against an absolute maximum coincides with the
0.6 threshold on the normalized ratio for a positive maximum. -/
theorem threshold_div (s m : ℚ) (hm : 0 < m) :
    (m * (3/5) ≤ s) ↔ ((3/5 : ℚ) ≤ s / m) := by
  rw [le_div_iff₀ hm, mul_comm]

/-- On realistically graded entries the implemented success test agrees
with the success rule as worded in the spec. -/
theorem successEntry_eq_spec (e : HistoryEntry) (h : wellScored e = true) :
    successEntry e = specSuccessRule e := by
  cases hs : e.score with
  | none => simp [successEntry, specSuccessRule, hs]
  | some s =>
      cases hm : e.max_score with
      | none => simp [wellScored, hs, hm] at h
      | some m =>
          have hm0 : 0 < m := by simpa [wellScored, hs, hm] using h
          simp only [successEntry, specSuccessRule, effectiveMax, hs, hm]
          rw [if_neg (ne_of_gt hm0)]
          congr 1
          exact decide_eq_decide.mpr (threshold_div s m hm0)

/-- The common handler tail never rewrites the already-appended history. -/
theorem proceed_history (st : QuizState) (pct : ℚ) (tt : ℤ) (o : FetchOutcome) :
    (proceed st pct tt o).history = st.history := by
  unfold proceed finishQuiz fetchNextQuestion resetSubState
  split <;> cases o <;> simp

/-- The common handler tail never rewrites the appended score list. -/
theorem proceed_recentScores (st : QuizState) (pct : ℚ) (tt : ℤ) (o : FetchOutcome) :
    (proceed st pct tt o).recentScores = st.recentScores := by
  unfold proceed finishQuiz fetchNextQuestion resetSubState
  split <;> cases o <;> simp

/-- Every item has at least one stepper step. -/
theorem one_le_totalSteps (q : Question) : 1 ≤ totalStepsOf q := by
  unfold totalStepsOf
  split <;> omega

/-- The open-response percentage at the pass boundary. -/
theorem openScorePct_6_10 : openScorePct ⟨6, 10⟩ = 60 := by
  unfold openScorePct
  norm_num [round_eq]

/-- The open-response percentage just below the pass boundary. -/
theorem openScorePct_5_10 : openScorePct ⟨5, 10⟩ = 50 := by
  unfold openScorePct
  norm_num [round_eq]

/-- A 6/10 open grade produces a success entry. -/
theorem openGraded_6_10_success : successEntry (openGraded 6 10) = true := by
  simp only [successEntry, openGraded, openScorePct_6_10]
  norm_num

/-- A 5/10 open grade produces a failure entry. -/
theorem openGraded_5_10_failure : successEntry (openGraded 5 10) = false := by
  simp only [successEntry, openGraded, effectiveMax, openScorePct_5_10]
  norm_num

/-- Both boundary entries are realistically graded. -/
theorem openGraded_wellScored (s : ℚ) : wellScored (openGraded s 10) = true := by
  simp only [wellScored, openGraded]
  norm_num

/-! ## C1 -/

/-- C1: Unified pass/fail rule.  A history entry graded against a defined
positive maximum counts as a success exactly when its boolean correctness
flag is true or its score / max ratio is at least 0.6; the boundary is
inclusive — the entry an OpenResponse graded 6/10 produces is a success
and the 5/10 entry a failure; and the tally sealed by `finishQuiz` and
displayed as `resultScore` equals the count of history entries satisfying
the spec-worded rule. -/
theorem unified_pass_fail_rule (e : HistoryEntry) (m : ℚ) (h : List HistoryEntry)
    (hm : e.max_score = some m) (hpos : 0 < m)
    (hh : ∀ x ∈ h, wellScored x = true) :
    (successEntry e = true ↔
      (e.isCorrect = true ∨ ∃ s, e.score = some s ∧ (3/5 : ℚ) ≤ s / m)) ∧
    successEntry (openGraded 6 10) = true ∧
    successEntry (openGraded 5 10) = false ∧
    sessionScore h = (h.filter specSuccessRule).length := by
  refine ⟨?_, openGraded_6_10_success, openGraded_5_10_failure, ?_⟩
  · cases hs : e.score with
    | none => simp [successEntry, hs]
    | some s =>
        simp only [successEntry, effectiveMax, hs, hm, Bool.or_eq_true,
          decide_eq_true_eq, Option.some.injEq]
        rw [if_neg (ne_of_gt hpos)]
        constructor
        · rintro (hc | hsc)
          · exact Or.inl hc
          · exact Or.inr ⟨s, rfl, (threshold_div s m hpos).mp hsc⟩
        · rintro (hc | ⟨s1, hs1, hge⟩)
          · exact Or.inl hc
          · cases hs1
            exact Or.inr ((threshold_div s m hpos).mpr hge)
  · unfold sessionScore
    congr 1
    exact List.filter_congr (fun x hx => successEntry_eq_spec x (hh x hx))

/-- Witness for C1 at the two boundary entries. -/
theorem unified_pass_fail_rule_witness :
    (openGraded 5 10).max_score = some 10 ∧ (0 : ℚ) < 10 ∧
    (∀ x ∈ [openGraded 6 10, openGraded 5 10], wellScored x = true) ∧
    ((successEntry (openGraded 5 10) = true ↔
        ((openGraded 5 10).isCorrect = true ∨
          ∃ s, (openGraded 5 10).score = some s ∧ (3/5 : ℚ) ≤ s / 10)) ∧
      successEntry (openGraded 6 10) = true ∧
      successEntry (openGraded 5 10) = false ∧
      sessionScore [openGraded 6 10, openGraded 5 10] =
        ([openGraded 6 10, openGraded 5 10].filter specSuccessRule).length) :=
  ⟨rfl, by norm_num,
    (by
      intro x hx
      simp only [List.mem_cons, List.not_mem_nil, or_false] at hx
      rcases hx with rfl | rfl <;> exact openGraded_wellScored _),
    unified_pass_fail_rule (openGraded 5 10) 10 [openGraded 6 10, openGraded 5 10]
      rfl (by norm_num)
      (by
        intro x hx
        simp only [List.mem_cons, List.not_mem_nil, or_false] at hx
        rcases hx with rfl | rfl <;> exact openGraded_wellScored _)⟩

/-! ## C10 -/

/-- C10: When `max_score` is absent or zero, the success rule substitutes
the default scale 10, so the entry is a success exactly when its flag is
true or its raw score is at least 6. -/
theorem default_scale_rule (e : HistoryEntry)
    (hm : e.max_score = none ∨ e.max_score = some 0) :
    (successEntry e = true ↔
      (e.isCorrect = true ∨ ∃ s, e.score = some s ∧ (6 : ℚ) ≤ s)) := by
  have hmax : effectiveMax e = 10 := by
    rcases hm with hm | hm <;> simp [effectiveMax, hm]
  cases hs : e.score with
  | none => simp [successEntry, hs]
  | some s =>
      simp only [successEntry, hs, hmax, Bool.or_eq_true, decide_eq_true_eq,
        Option.some.injEq]
      constructor
      · rintro (hc | hsc)
        · exact Or.inl hc
        · refine Or.inr ⟨s, rfl, ?_⟩
          linarith
      · rintro (hc | ⟨s1, hs1, hge⟩)
        · exact Or.inl hc
        · cases hs1
          refine Or.inr ?_
          linarith

/-- Witness for C10 at a graded entry with an absent maximum. -/
theorem default_scale_rule_witness :
    (legacyEntry.max_score = none ∨ legacyEntry.max_score = some 0) ∧
    (successEntry legacyEntry = true ↔
      (legacyEntry.isCorrect = true ∨
        ∃ s, legacyEntry.score = some s ∧ (6 : ℚ) ≤ s)) :=
  ⟨Or.inl rfl, default_scale_rule legacyEntry (Or.inl rfl)⟩

/-! ## C9 -/

/-- C9: The local session store is append-only and bounded — a new
session lands at index 0, the previously retained sessions keep their
relative order (the tail is exactly the first 49 previous sessions), and
the retained length is min(previousLength + 1, 50). -/
theorem session_store_append (all : List Session) (s : Session) :
    (saveSession all s).head? = some s ∧
    (saveSession all s).tail = all.take 49 ∧
    (saveSession all s).length = min (all.length + 1) 50 := by
  rw [saveSession_cons]
  refine ⟨rfl, rfl, ?_⟩
  simp only [List.length_cons, List.length_take]
  omega

/-! ## C3 -/

/-- C3: Every successful fetch of a next item performs the full sub-state
reset in the same transition — empty selection, hidden reveal, empty
draft, no grading result, hints hidden, step pointer 1, empty
decision-answer map, no scenario grading result — and captures a fresh
elapsed-time reference point while installing the new item. -/
theorem presenting_reset (st : QuizState) (nh : List HistoryEntry) (ns : List ℚ)
    (pct : ℚ) (tt : ℤ) (q : Question) (lvl : ℕ) (diff : String) (now : ℤ) :
    (fetchNextQuestion st nh ns pct tt (.ok q lvl diff now)).selected = none ∧
    (fetchNextQuestion st nh ns pct tt (.ok q lvl diff now)).revealed = false ∧
    (fetchNextQuestion st nh ns pct tt (.ok q lvl diff now)).openAnswer = "" ∧
    (fetchNextQuestion st nh ns pct tt (.ok q lvl diff now)).evaluation = none ∧
    (fetchNextQuestion st nh ns pct tt (.ok q lvl diff now)).showHint = false ∧
    (fetchNextQuestion st nh ns pct tt (.ok q lvl diff now)).currentStep = 1 ∧
    (∀ k, (fetchNextQuestion st nh ns pct tt (.ok q lvl diff now)).stepAnswers k = none) ∧
    (fetchNextQuestion st nh ns pct tt (.ok q lvl diff now)).stepHint = false ∧
    (fetchNextQuestion st nh ns pct tt (.ok q lvl diff now)).scenarioEval = none ∧
    (fetchNextQuestion st nh ns pct tt (.ok q lvl diff now)).startTime = now ∧
    (fetchNextQuestion st nh ns pct tt (.ok q lvl diff now)).currentQ = some q := by
  simp [fetchNextQuestion, resetSubState]

/-! ## C7 -/

/-- C7: Issuing `startRecording` while the orchestrator status is anything
other than idle is a no-op — the state, including the capture resource,
is unchanged, so no second capture can start. -/
theorem start_recording_nonidle_noop (st : InterviewState) (mic : MicOutcome)
    (h : st.status ≠ "idle") :
    startRecording st mic = st := by
  simp [startRecording, h]

/-- Witness for C7 during an in-flight transcription. -/
theorem start_recording_nonidle_noop_witness :
    busyInterview.status ≠ "idle" ∧
    startRecording busyInterview .granted = busyInterview :=
  ⟨by decide, start_recording_nonidle_noop busyInterview .granted (by decide)⟩

/-! ## C8 -/

/-- C8 counterexample: with an utterance still playing, the back-to-setup
handler empties the exchange log but the playback keeps running — the
claimed cancellation does not happen. -/
theorem back_to_setup_keeps_playback :
    (backToSetup speakingInterview).messages = [] ∧
    (backToSetup speakingInterview).history = [] ∧
    speakingInterview.speaking = true ∧
    ¬(backToSetup speakingInterview).speaking = false := by
  refine ⟨rfl, rfl, rfl, ?_⟩
  decide

/-- C8 amended: Returning to Setup discards the exchange log (messages,
per-question history and the draft transcript) but leaves any in-flight
playback running; the playback resource is released by the mute toggle
(when currently unmuted), not by the back navigation. -/
theorem back_to_setup_discards_log (st : InterviewState) :
    (backToSetup st).phase = "setup" ∧
    (backToSetup st).messages = [] ∧
    (backToSetup st).history = [] ∧
    (backToSetup st).transcript = "" ∧
    (backToSetup st).speaking = st.speaking ∧
    (toggleMute st).speaking = (st.isMuted && st.speaking) := by
  refine ⟨rfl, rfl, rfl, rfl, rfl, ?_⟩
  unfold toggleMute
  cases h : st.isMuted <;> simp

/-! ## C5 -/

/-- C5 counterexample: after 1 completed item and a failed fetch, the
only continuation the retry affordance opens (Retry, then the
re-presented Next control) appends a second entry for the same item
before the successful fetch — the history then holds the question of item
1 twice. -/
theorem retry_duplicates_entry :
    (run retryDemoInit retryDemoEvs).map
        (fun st => (st.history.map (fun e => e.question), st.quizError, st.qIndex)) =
      some (["Q1", "Q1"], none, 2) := by
  decide

/-- C5 amended: A failed fetch-next leaves the accumulated history, the
stored sessions and the current item untouched and sets the user-visible
retryable error; the Retry control merely clears that error; and any
subsequent activation of the Next control of the still-presented item
appends one more entry for that same item — there is no path that retries
the fetch without re-appending. -/
theorem failed_fetch_retry (st s2 : QuizState) (nh : List HistoryEntry)
    (ns : List ℚ) (pct : ℚ) (tt : ℤ) (msg : String) (q : Question) (now : ℤ)
    (o : FetchOutcome) (hq : st.currentQ = some q)
    (hs : (decide (s2.screen = "adaptive-quiz") && !s2.loading &&
      s2.quizError.isSome) = true) :
    (fetchNextQuestion st nh ns pct tt (.err msg)).history = st.history ∧
    (fetchNextQuestion st nh ns pct tt (.err msg)).sessions = st.sessions ∧
    (fetchNextQuestion st nh ns pct tt (.err msg)).quizError = some msg ∧
    (fetchNextQuestion st nh ns pct tt (.err msg)).currentQ = some q ∧
    step s2 .retry = some { s2 with quizError := none } ∧
    (handleMCQNext st now o).history = st.history ++ [mcqEntry st q now] := by
  refine ⟨rfl, rfl, rfl, by simp [fetchNextQuestion, hq], ?_, ?_⟩
  · simp only [step, hs, if_true]
  · simp only [handleMCQNext, hq]
    rw [proceed_history]

/-- Witness for C5 at the post-failure state of the retry trace. -/
theorem failed_fetch_retry_witness :
    retryDemoFailed.currentQ = some (mcqQ "Q1" "A") ∧
    (decide (retryDemoFailed.screen = "adaptive-quiz") && !retryDemoFailed.loading &&
      retryDemoFailed.quizError.isSome) = true ∧
    ((fetchNextQuestion retryDemoFailed [] [] 0 0 (.err "network")).history =
        retryDemoFailed.history ∧
      (fetchNextQuestion retryDemoFailed [] [] 0 0 (.err "network")).sessions =
        retryDemoFailed.sessions ∧
      (fetchNextQuestion retryDemoFailed [] [] 0 0 (.err "network")).quizError =
        some "network" ∧
      (fetchNextQuestion retryDemoFailed [] [] 0 0 (.err "network")).currentQ =
        some (mcqQ "Q1" "A") ∧
      step retryDemoFailed .retry = some { retryDemoFailed with quizError := none } ∧
      (handleMCQNext retryDemoFailed 2 (.ok (mcqQ "Q2" "A") 1 "medium" 2)).history =
        retryDemoFailed.history ++ [mcqEntry retryDemoFailed (mcqQ "Q1" "A") 2]) :=
  ⟨by decide, by decide,
    failed_fetch_retry retryDemoFailed retryDemoFailed [] [] 0 0 "network"
      (mcqQ "Q1" "A") 2 (.ok (mcqQ "Q2" "A") 1 "medium" 2) (by decide) (by decide)⟩

/-! ## C6 -/

/-- C6 counterexample: after three completed items the rolling list holds
all three score percentages — it is not capped at 2 entries, and this
full list is what the next outbound request would carry. -/
theorem rolling_window_unbounded :
    (run windowDemoInit windowDemoEvs).map
        (fun st => (st.recentScores, decide (st.recentScores.length ≤ 2))) =
      some ([100, 100, 100], false) := by
  decide

/-- C6 amended: The recent-scores list grows by exactly one entry per
completed item and nothing is ever evicted from it; the outbound
`/adaptive/next` request carries the entire accumulated list; only the
average displayed by the level progress bar is computed over the last two
entries. -/
theorem rolling_scores_accumulate (st : QuizState) (q : Question) (now : ℤ)
    (o : FetchOutcome) (l : List ℚ) (a b : ℚ)
    (hq : st.currentQ = some q) (hqi : st.qIndex < st.numQuestions) :
    (handleMCQNext st now o).recentScores = st.recentScores ++ [mcqScorePct st q] ∧
    (mcqNextRequest st now).map (fun r => r.recent_score_pcts) =
      some (st.recentScores ++ [mcqScorePct st q]) ∧
    levelBarAvg (l ++ [a, b]) = some (round ((a + b) / 2)) := by
  refine ⟨?_, ?_, ?_⟩
  · simp only [handleMCQNext, hq]
    rw [proceed_recentScores]
  · simp only [mcqNextRequest, hq]
    rw [if_neg (not_le.mpr hqi)]
    rfl
  · unfold levelBarAvg
    rw [if_neg (by simp)]
    have hdrop : (l ++ [a, b]).drop ((l ++ [a, b]).length - 2) = [a, b] := by
      have h2 : (l ++ [a, b]).length - 2 = l.length := by
        simp only [List.length_append, List.length_cons, List.length_nil]
        omega
      rw [h2, List.drop_left]
    have hmin : min (l ++ [a, b]).length 2 = 2 := by
      simp only [List.length_append, List.length_cons, List.length_nil]
      omega
    rw [hdrop, hmin]
    norm_num

/-- Witness for C6 after the first two completed items of the
rolling-window run. -/
theorem rolling_scores_accumulate_witness :
    windowDemoMid.currentQ = some (mcqQ "Q3" "A") ∧
    windowDemoMid.qIndex < windowDemoMid.numQuestions ∧
    ((handleMCQNext windowDemoMid 2 (.ok (mcqQ "Q4" "A") 1 "medium" 2)).recentScores =
        windowDemoMid.recentScores ++ [mcqScorePct windowDemoMid (mcqQ "Q3" "A")] ∧
      (mcqNextRequest windowDemoMid 2).map (fun r => r.recent_score_pcts) =
        some (windowDemoMid.recentScores ++ [mcqScorePct windowDemoMid (mcqQ "Q3" "A")]) ∧
      levelBarAvg ([64] ++ [80, 90]) = some (round (((80 : ℚ) + 90) / 2))) :=
  ⟨by decide, by decide,
    rolling_scores_accumulate windowDemoMid (mcqQ "Q3" "A") 2
      (.ok (mcqQ "Q4" "A") 1 "medium" 2) [64] 80 90 (by decide) (by decide)⟩

/-! ## C2 -/

/-- A control rendered on the quiz body implies the quiz screen is shown. -/
theorem guardQuiz_screen (st : QuizState) (h : guardQuiz st = true) :
    st.screen = "adaptive-quiz" := by
  simp only [guardQuiz, Bool.and_eq_true, decide_eq_true_eq] at h
  exact h.1.1.1

/-- A control rendered on the quiz body implies a current question exists. -/
theorem guardQuiz_someQ (st : QuizState) (h : guardQuiz st = true) :
    ∃ q, st.currentQ = some q := by
  simp only [guardQuiz, Bool.and_eq_true, Option.isSome_iff_exists] at h
  exact h.2

/-- The sealed-session invariant only reads six fields; states agreeing on
them inherit it from one another. -/
theorem sealedInv_of_fields (N : ℕ) (st st1 : QuizState)
    (h1 : st1.screen = st.screen) (h2 : st1.numQuestions = st.numQuestions)
    (h3 : st1.quizError = st.quizError) (h4 : st1.qIndex = st.qIndex)
    (h5 : st1.history = st.history) (h6 : st1.sessions = st.sessions)
    (hinv : SealedInv N st) : SealedInv N st1 := by
  unfold SealedInv at hinv ⊢
  rw [h1, h2, h3, h4, h5, h6]
  exact hinv

/-- The stepper handler never touches the fields the sealed-session
invariant reads. -/
theorem handleStepNext_outer (st : QuizState) (r : ScenarioEval) :
    (handleStepNext st r).screen = st.screen ∧
    (handleStepNext st r).numQuestions = st.numQuestions ∧
    (handleStepNext st r).quizError = st.quizError ∧
    (handleStepNext st r).qIndex = st.qIndex ∧
    (handleStepNext st r).history = st.history ∧
    (handleStepNext st r).sessions = st.sessions := by
  cases hq : st.currentQ with
  | none => simp [handleStepNext, hq]
  | some q =>
      simp only [handleStepNext, hq]
      split_ifs <;> simp

/-- The handler tail re-establishes the sealed-session invariant when the
history has just been extended by the answered item and the fetch
succeeds. -/
theorem sealedInv_proceed (N : ℕ) (st1 : QuizState) (pct : ℚ) (tt : ℤ)
    (q : Question) (lvl : ℕ) (df : String) (tn : ℤ)
    (hscr : st1.screen = "adaptive-quiz") (hnum : st1.numQuestions = N)
    (hqi : st1.qIndex = st1.history.length) (hle : st1.qIndex ≤ N) :
    SealedInv N (proceed st1 pct tt (.ok q lvl df tn)) := by
  unfold proceed
  split
  · rename_i hge
    have hqN : st1.qIndex = N := le_antisymm hle (hnum ▸ hge)
    refine ⟨by simp [finishQuiz, hnum], ?_, ?_⟩
    · intro h
      simp [finishQuiz] at h
    · intro _
      refine ⟨mkSession st1 st1.history, st1.sessions.take 49, ?_, ?_, ?_⟩
      · simp [finishQuiz, saveSession_cons]
      · simp [mkSession, hnum]
      · simp only [mkSession]
        omega
  · rename_i hlt
    push_neg at hlt
    refine ⟨by simp [fetchNextQuestion, resetSubState, hnum], ?_, ?_⟩
    · intro _
      refine ⟨by simp [fetchNextQuestion, resetSubState], ?_, ?_⟩
      · simp only [fetchNextQuestion, resetSubState]
        omega
      · simp only [fetchNextQuestion, resetSubState]
        omega
    · intro h
      rw [show (fetchNextQuestion st1 st1.history st1.recentScores pct tt
            (.ok q lvl df tn)).screen = st1.screen from
          by simp [fetchNextQuestion, resetSubState]] at h
      rw [hscr] at h
      simp at h

/-- One available event with a successful embedded service response
preserves the sealed-session invariant. -/
theorem sealedInv_step (N : ℕ) (st st1 : QuizState) (e : Event)
    (hok : okEvent e = true) (hst : step st e = some st1)
    (hinv : SealedInv N st) : SealedInv N st1 := by
  cases e with
  | select k =>
      simp only [step] at hst
      split at hst
      · rw [Option.some_inj] at hst
        subst hst
        refine sealedInv_of_fields N st _ ?_ ?_ ?_ ?_ ?_ ?_ hinv <;>
          (split <;> rfl)
      · exact absurd hst (by simp)
  | mcqNext now o =>
      cases o with
      | err m => simp [okEvent, okOutcome] at hok
      | ok q lvl df tn =>
        simp only [step] at hst
        split at hst
        · rename_i hg
          rw [Option.some_inj] at hst
          subst hst
          simp only [Bool.and_eq_true] at hg
          obtain ⟨⟨⟨hgq, _⟩, _⟩, _⟩ := hg
          obtain ⟨qq, hqq⟩ := guardQuiz_someQ st hgq
          have hscr := guardQuiz_screen st hgq
          obtain ⟨hnum, hquiz, _⟩ := hinv
          obtain ⟨_, hqi, hle⟩ := hquiz hscr
          simp only [handleMCQNext, hqq]
          apply sealedInv_proceed
          · simpa using hscr
          · simpa using hnum
          · simp only [List.length_append, List.length_cons, List.length_nil]
            omega
          · simpa using hle
        · exact absurd hst (by simp)
  | editOpen s =>
      simp only [step] at hst
      split at hst
      · rw [Option.some_inj] at hst
        subst hst
        exact sealedInv_of_fields N st _ rfl rfl rfl rfl rfl rfl hinv
      · exact absurd hst (by simp)
  | submitOpen ev =>
      simp only [step] at hst
      split at hst
      · rw [Option.some_inj] at hst
        subst hst
        exact sealedInv_of_fields N st _ rfl rfl rfl rfl rfl rfl hinv
      · exact absurd hst (by simp)
  | openNext now o =>
      cases o with
      | err m => simp [okEvent, okOutcome] at hok
      | ok q lvl df tn =>
        simp only [step] at hst
        split at hst
        · rename_i hg
          rw [Option.some_inj] at hst
          subst hst
          simp only [Bool.and_eq_true] at hg
          obtain ⟨⟨hgq, _⟩, hevs⟩ := hg
          obtain ⟨qq, hqq⟩ := guardQuiz_someQ st hgq
          obtain ⟨ev, hev⟩ := Option.isSome_iff_exists.mp hevs
          have hscr := guardQuiz_screen st hgq
          obtain ⟨hnum, hquiz, _⟩ := hinv
          obtain ⟨_, hqi, hle⟩ := hquiz hscr
          simp only [handleOpenNext, hqq, hev]
          apply sealedInv_proceed
          · simpa using hscr
          · simpa using hnum
          · simp only [List.length_append, List.length_cons, List.length_nil]
            omega
          · simpa using hle
        · exact absurd hst (by simp)
  | toggleHint =>
      simp only [step] at hst
      split at hst
      · rw [Option.some_inj] at hst
        subst hst
        exact sealedInv_of_fields N st _ rfl rfl rfl rfl rfl rfl hinv
      · exact absurd hst (by simp)
  | editStep s =>
      simp only [step] at hst
      split at hst
      · rw [Option.some_inj] at hst
        subst hst
        exact sealedInv_of_fields N st _ rfl rfl rfl rfl rfl rfl hinv
      · exact absurd hst (by simp)
  | toggleStepHint =>
      simp only [step] at hst
      split at hst
      · rw [Option.some_inj] at hst
        subst hst
        exact sealedInv_of_fields N st _ rfl rfl rfl rfl rfl rfl hinv
      · exact absurd hst (by simp)
  | stepNext r =>
      simp only [step] at hst
      split at hst
      · rw [Option.some_inj] at hst
        subst hst
        obtain ⟨f1, f2, f3, f4, f5, f6⟩ := handleStepNext_outer st r
        exact sealedInv_of_fields N st _ f1 f2 f3 f4 f5 f6 hinv
      · exact absurd hst (by simp)
  | scenarioNext now o =>
      cases o with
      | err m => simp [okEvent, okOutcome] at hok
      | ok q lvl df tn =>
        simp only [step] at hst
        split at hst
        · rename_i hg
          rw [Option.some_inj] at hst
          subst hst
          simp only [Bool.and_eq_true] at hg
          obtain ⟨⟨hgq, _⟩, hsevs⟩ := hg
          obtain ⟨qq, hqq⟩ := guardQuiz_someQ st hgq
          obtain ⟨sev, hsev⟩ := Option.isSome_iff_exists.mp hsevs
          have hscr := guardQuiz_screen st hgq
          obtain ⟨hnum, hquiz, _⟩ := hinv
          obtain ⟨_, hqi, hle⟩ := hquiz hscr
          simp only [handleScenarioNext, hqq, hsev]
          apply sealedInv_proceed
          · simpa using hscr
          · simpa using hnum
          · simp only [List.length_append, List.length_cons, List.length_nil]
            omega
          · simpa using hle
        · exact absurd hst (by simp)
  | retry =>
      simp only [step] at hst
      split at hst
      · rename_i hg
        simp only [Bool.and_eq_true, decide_eq_true_eq] at hg
        obtain ⟨⟨hscr, _⟩, hsome⟩ := hg
        obtain ⟨_, hquiz, _⟩ := hinv
        obtain ⟨herr, _, _⟩ := hquiz hscr
        rw [herr] at hsome
        simp at hsome
      · exact absurd hst (by simp)

/-- The sealed-session invariant holds along every failure-free run. -/
theorem sealedInv_run (N : ℕ) (evs : List Event) :
    ∀ st0 st1 : QuizState, (∀ e ∈ evs, okEvent e = true) →
      run st0 evs = some st1 → SealedInv N st0 → SealedInv N st1 := by
  induction evs with
  | nil =>
      intro st0 st1 _ h hi
      simp only [run, Option.some_inj] at h
      rw [← h]
      exact hi
  | cons e es ih =>
      intro st0 st1 hok hrun hi
      simp only [run] at hrun
      cases hstep : step st0 e with
      | none =>
          rw [hstep] at hrun
          exact absurd hrun (by simp)
      | some stm =>
          rw [hstep] at hrun
          exact ih stm st1 (fun x hx => hok x (List.mem_cons_of_mem _ hx)) hrun
            (sealedInv_step N st0 stm e (hok e (List.mem_cons_self _ _)) hstep hi)

/-- C2 counterexample: a 3-item run with one failed fetch reaches the
sealed state with a session whose configured total is 3 but whose history
holds 4 entries — the claimed equality fails for this sealed session. -/
theorem sealed_length_mismatch :
    (run sealDemoInit sealDemoEvs).map
        (fun st => (st.screen, st.sessions.map (fun s => (s.total, s.history.length)))) =
      some ("results", [(3, 4)]) := by
  decide

/-- C2 amended: In every run of the quiz in which no fetch-next request
fails, the session sealed at completion (the head of the stored session
list) has exactly the configured number of history entries; after a
failed fetch the forced re-submission of the current item can add
further entries, as the counterexample shows. -/
theorem sealed_history_length (topic prof : String) (numQ : ℕ)
    (s0 : List Session) (q0 : Question) (t0 : ℤ) (evs : List Event)
    (st : QuizState) (hN : 1 ≤ numQ) (hok : ∀ e ∈ evs, okEvent e = true)
    (hrun : run (initQuiz topic prof numQ s0 q0 t0) evs = some st)
    (hres : st.screen = "results") :
    ∃ s rest, st.sessions = s :: rest ∧ s.total = numQ ∧ s.history.length = numQ := by
  have hinit : SealedInv numQ (initQuiz topic prof numQ s0 q0 t0) := by
    refine ⟨rfl, fun _ => ⟨rfl, rfl, hN⟩, fun h => ?_⟩
    simp [initQuiz] at h
  exact (sealedInv_run numQ evs _ st hok hrun hinit).2.2 hres

/-- Witness for C2 on a fully successful 3-item run. -/
theorem sealed_history_length_witness :
    (1 : ℕ) ≤ 3 ∧ (∀ e ∈ sealWitnessEvs, okEvent e = true) ∧
    run sealWitnessInit sealWitnessEvs = some sealWitnessFinal ∧
    sealWitnessFinal.screen = "results" ∧
    (∃ s rest, sealWitnessFinal.sessions = s :: rest ∧
      s.total = 3 ∧ s.history.length = 3) :=
  ⟨by omega, by decide, rfl, by decide,
    sealed_history_length "react" "intermediate" 3 [] (mcqQ "W1" "A") 0
      sealWitnessEvs sealWitnessFinal (by omega) (by decide) rfl (by decide)⟩

/-! ## C4 -/

/-- The stepper invariant only reads three fields; states agreeing on
them inherit it from one another. -/
theorem scnInv_of_fields (st st1 : QuizState)
    (h1 : st1.currentStep = st.currentStep)
    (h2 : st1.stepAnswers = st.stepAnswers)
    (h3 : st1.currentQ = st.currentQ)
    (hi : ScnInv st) : ScnInv st1 := by
  unfold ScnInv at hi ⊢
  rw [h1, h2, h3]
  exact hi

/-- The full sub-state reset establishes the stepper invariant
unconditionally. -/
theorem scnInv_resetSubState (st : QuizState) : ScnInv (resetSubState st) := by
  refine ⟨le_refl 1, rfl, ?_, ?_, ?_⟩
  · intro k hk1 hk2
    simp only [resetSubState] at hk2
    omega
  · intro k _
    rfl
  · intro q _
    simp only [resetSubState]
    exact one_le_totalSteps q

/-- The handler tail preserves the stepper invariant: finishing or a
failed fetch leaves the stepper fields alone, and a successful fetch runs
the full reset. -/
theorem scnInv_proceed (st1 : QuizState) (pct : ℚ) (tt : ℤ) (o : FetchOutcome)
    (hi : ScnInv st1) : ScnInv (proceed st1 pct tt o) := by
  unfold proceed
  split
  · exact scnInv_of_fields st1 _ rfl rfl rfl hi
  · cases o with
    | ok q lvl df tn => exact scnInv_resetSubState _
    | err m => exact scnInv_of_fields st1 _ rfl rfl rfl hi

/-- Every available event preserves the stepper invariant. -/
theorem scnInv_step (st st1 : QuizState) (e : Event)
    (hst : step st e = some st1) (hi : ScnInv st) : ScnInv st1 := by
  cases e with
  | select k =>
      simp only [step] at hst
      split at hst
      · rw [Option.some_inj] at hst
        subst hst
        refine scnInv_of_fields st _ ?_ ?_ ?_ hi <;> (split <;> rfl)
      · exact absurd hst (by simp)
  | mcqNext now o =>
      simp only [step] at hst
      split at hst
      · rename_i hg
        rw [Option.some_inj] at hst
        subst hst
        simp only [Bool.and_eq_true] at hg
        obtain ⟨⟨⟨hgq, _⟩, _⟩, _⟩ := hg
        obtain ⟨qq, hqq⟩ := guardQuiz_someQ st hgq
        simp only [handleMCQNext, hqq]
        exact scnInv_proceed _ _ _ _ (scnInv_of_fields st _ rfl rfl (by simp [hqq]) hi)
      · exact absurd hst (by simp)
  | editOpen s =>
      simp only [step] at hst
      split at hst
      · rw [Option.some_inj] at hst
        subst hst
        exact scnInv_of_fields st _ rfl rfl rfl hi
      · exact absurd hst (by simp)
  | submitOpen ev =>
      simp only [step] at hst
      split at hst
      · rw [Option.some_inj] at hst
        subst hst
        exact scnInv_of_fields st _ rfl rfl rfl hi
      · exact absurd hst (by simp)
  | openNext now o =>
      simp only [step] at hst
      split at hst
      · rename_i hg
        rw [Option.some_inj] at hst
        subst hst
        simp only [Bool.and_eq_true] at hg
        obtain ⟨⟨hgq, _⟩, hevs⟩ := hg
        obtain ⟨qq, hqq⟩ := guardQuiz_someQ st hgq
        obtain ⟨ev, hev⟩ := Option.isSome_iff_exists.mp hevs
        simp only [handleOpenNext, hqq, hev]
        exact scnInv_proceed _ _ _ _ (scnInv_of_fields st _ rfl rfl (by simp [hqq]) hi)
      · exact absurd hst (by simp)
  | toggleHint =>
      simp only [step] at hst
      split at hst
      · rw [Option.some_inj] at hst
        subst hst
        exact scnInv_of_fields st _ rfl rfl rfl hi
      · exact absurd hst (by simp)
  | editStep s =>
      simp only [step] at hst
      split at hst
      · rw [Option.some_inj] at hst
        subst hst
        obtain ⟨h1, h0, hlt, hgt, hq5⟩ := hi
        refine ⟨h1, ?_, ?_, ?_, hq5⟩
        · show (if 0 = st.currentStep then some s else st.stepAnswers 0) = none
          rw [if_neg (by omega)]
          exact h0
        · intro k hk1 hk2
          have hk2a : k < st.currentStep := hk2
          show ∃ a, (if k = st.currentStep then some s else st.stepAnswers k) = some a ∧
            isBlank a = false
          rw [if_neg (by omega)]
          exact hlt k hk1 hk2a
        · intro k hk
          have hka : st.currentStep < k := hk
          show (if k = st.currentStep then some s else st.stepAnswers k) = none
          rw [if_neg (by omega)]
          exact hgt k hka
      · exact absurd hst (by simp)
  | toggleStepHint =>
      simp only [step] at hst
      split at hst
      · rw [Option.some_inj] at hst
        subst hst
        exact scnInv_of_fields st _ rfl rfl rfl hi
      · exact absurd hst (by simp)
  | stepNext r =>
      simp only [step] at hst
      split at hst
      · rw [Option.some_inj] at hst
        subst hst
        obtain ⟨h1, h0, hlt, hgt, hq5⟩ := hi
        cases hqq : st.currentQ with
        | none =>
            simp only [handleStepNext, hqq]
            exact ⟨h1, h0, hlt, hgt, hq5⟩
        | some q =>
            simp only [handleStepNext, hqq]
            split
            · exact ⟨h1, h0, hlt, hgt, hq5⟩
            · split
              · rename_i hnb hcond
                refine ⟨?_, h0, ?_, ?_, ?_⟩
                · show 1 ≤ st.currentStep + 1
                  omega
                · intro k hk1 hk2
                  have hk2a : k < st.currentStep + 1 := hk2
                  show ∃ a, st.stepAnswers k = some a ∧ isBlank a = false
                  rcases Nat.lt_or_ge k st.currentStep with hk | hk
                  · exact hlt k hk1 hk
                  · have hke : k = st.currentStep := by omega
                    rw [hke]
                    cases hm : st.stepAnswers st.currentStep with
                    | none =>
                        exfalso
                        apply hnb
                        simp [getAns, hm, isBlank]
                    | some a =>
                        refine ⟨a, rfl, ?_⟩
                        have hga : getAns st.stepAnswers st.currentStep = a := by
                          simp [getAns, hm]
                        rw [Bool.not_eq_true] at hnb
                        rwa [hga] at hnb
                · intro k hk
                  have hka : st.currentStep + 1 < k := hk
                  show st.stepAnswers k = none
                  exact hgt k (by omega)
                · intro q1 hq1
                  have hq1a : q = q1 := Option.some_inj.mp hq1
                  show st.currentStep + 1 ≤ totalStepsOf q1
                  rw [← hq1a]
                  omega
              · refine ⟨h1, h0, hlt, hgt, ?_⟩
                intro q1 hq1
                have hq1a : q = q1 := Option.some_inj.mp hq1
                show st.currentStep ≤ totalStepsOf q1
                rw [← hq1a]
                exact hq5 q hqq
      · exact absurd hst (by simp)
  | scenarioNext now o =>
      simp only [step] at hst
      split at hst
      · rename_i hg
        rw [Option.some_inj] at hst
        subst hst
        simp only [Bool.and_eq_true] at hg
        obtain ⟨⟨hgq, _⟩, hsevs⟩ := hg
        obtain ⟨qq, hqq⟩ := guardQuiz_someQ st hgq
        obtain ⟨sev, hsev⟩ := Option.isSome_iff_exists.mp hsevs
        simp only [handleScenarioNext, hqq, hsev]
        exact scnInv_proceed _ _ _ _ (scnInv_of_fields st _ rfl rfl (by simp [hqq]) hi)
      · exact absurd hst (by simp)
  | retry =>
      simp only [step] at hst
      split at hst
      · rw [Option.some_inj] at hst
        subst hst
        exact scnInv_of_fields st _ rfl rfl rfl hi
      · exact absurd hst (by simp)

/-- The stepper invariant holds along every run. -/
theorem scnInv_run (evs : List Event) :
    ∀ st0 st1 : QuizState, run st0 evs = some st1 → ScnInv st0 → ScnInv st1 := by
  induction evs with
  | nil =>
      intro st0 st1 h hi
      simp only [run, Option.some_inj] at h
      rw [← h]
      exact hi
  | cons e es ih =>
      intro st0 st1 hrun hi
      simp only [run] at hrun
      cases hstep : step st0 e with
      | none =>
          rw [hstep] at hrun
          exact absurd hrun (by simp)
      | some stm =>
          rw [hstep] at hrun
          exact ih stm st1 hrun (scnInv_step st0 stm e hstep hi)

/-- The stepper invariant holds right after a quiz starts. -/
theorem scnInv_init (topic prof : String) (numQ : ℕ) (s0 : List Session)
    (q : Question) (t0 : ℤ) : ScnInv (initQuiz topic prof numQ s0 q t0) := by
  refine ⟨le_refl 1, rfl, ?_, ?_, ?_⟩
  · intro k hk1 hk2
    simp only [initQuiz] at hk2
    omega
  · intro k _
    rfl
  · intro q1 _
    simp only [initQuiz]
    exact one_le_totalSteps q1

/-- C4: Scenario stepping.  Advancing with a blank or whitespace answer
for the current decision point is a no-op; and in any reachable state in
which the single grading request fires (only possible from the last step
of an N-decision-point scenario), the decision-answer map carried by the
request holds exactly the keys 1..N, each mapped to non-blank text —
never a partial map. -/
theorem scenario_step_contract (topic prof : String) (numQ : ℕ)
    (s0 : List Session) (q0 : Question) (t0 : ℤ) (evs : List Event)
    (st st2 : QuizState) (q : Question) (r : ScenarioEval)
    (hrun : run (initQuiz topic prof numQ s0 q0 t0) evs = some st)
    (hq : st.currentQ = some q) (hN : 0 < q.decisionPoints.length)
    (hsub : stepSubmits st = true)
    (hblank : isBlank (getAns st2.stepAnswers st2.currentStep) = true) :
    handleStepNext st2 r = st2 ∧
    st.currentStep = q.decisionPoints.length ∧
    (∀ k, (1 ≤ k ∧ k ≤ q.decisionPoints.length) ↔
      ∃ a, (buildL3Request st q).user_answers k = some a ∧ isBlank a = false) := by
  obtain ⟨h1, h0, hlt, hgt, hq5⟩ :=
    scnInv_run evs _ st hrun (scnInv_init topic prof numQ s0 q0 t0)
  have htot : totalStepsOf q = q.decisionPoints.length := by
    unfold totalStepsOf
    rw [if_neg (by omega)]
  obtain ⟨hnb1, hge1⟩ : isBlank (getAns st.stepAnswers st.currentStep) = false ∧
      totalStepsOf q ≤ st.currentStep := by
    simp only [stepSubmits, hq, Bool.and_eq_true, Bool.not_eq_true',
      decide_eq_true_eq] at hsub
    exact hsub
  have hle : st.currentStep ≤ totalStepsOf q := hq5 q hq
  have hstep : st.currentStep = q.decisionPoints.length := by omega
  refine ⟨?_, hstep, ?_⟩
  · cases hq2 : st2.currentQ with
    | none => simp [handleStepNext, hq2]
    | some q2 => simp [handleStepNext, hq2, hblank]
  · intro k
    show (1 ≤ k ∧ k ≤ q.decisionPoints.length) ↔
      ∃ a, st.stepAnswers k = some a ∧ isBlank a = false
    constructor
    · rintro ⟨hk1, hk2⟩
      rcases Nat.lt_or_ge k st.currentStep with hk | hk
      · exact hlt k hk1 hk
      · have hke : k = st.currentStep := by omega
        rw [hke]
        cases hm : st.stepAnswers st.currentStep with
        | none =>
            exfalso
            have hge : getAns st.stepAnswers st.currentStep = "" := by
              simp [getAns, hm]
            rw [hge] at hnb1
            exact absurd hnb1 (by decide)
        | some a =>
            refine ⟨a, rfl, ?_⟩
            have hga : getAns st.stepAnswers st.currentStep = a := by
              simp [getAns, hm]
            rwa [hga] at hnb1
    · rintro ⟨a, ha, _⟩
      constructor
      · by_contra hk
        have hk0 : k = 0 := by omega
        rw [hk0, h0] at ha
        exact absurd ha (by simp)
      · by_contra hk
        rw [hgt k (by omega)] at ha
        exact absurd ha (by simp)

/-- Witness for C4 at the two-decision-point scenario ready to submit. -/
theorem scenario_step_contract_witness :
    run scnWitnessInit scnWitnessEvs = some scnWitnessSt ∧
    scnWitnessSt.currentQ = some scnWitnessQ ∧
    0 < scnWitnessQ.decisionPoints.length ∧
    stepSubmits scnWitnessSt = true ∧
    isBlank (getAns (default : QuizState).stepAnswers
      (default : QuizState).currentStep) = true ∧
    (handleStepNext (default : QuizState) ⟨7, 10⟩ = (default : QuizState) ∧
      scnWitnessSt.currentStep = scnWitnessQ.decisionPoints.length ∧
      (∀ k, (1 ≤ k ∧ k ≤ scnWitnessQ.decisionPoints.length) ↔
        ∃ a, (buildL3Request scnWitnessSt scnWitnessQ).user_answers k = some a ∧
          isBlank a = false)) :=
  ⟨rfl, by decide, by decide, by decide, by decide,
    scenario_step_contract "sre" "advanced" 3 [] scnWitnessQ 0 scnWitnessEvs
      scnWitnessSt (default : QuizState) scnWitnessQ ⟨7, 10⟩ rfl (by decide)
      (by decide) (by decide) (by decide)⟩

end SSH
